import Mathlib

/-!
# Verification of the `Sudoku` backtracking solver (`src/SudokuSolver.py`)

Shallow embedding of the `Sudoku` class.  The Python grid is a
`list[list[int]]`; we embed it as `List (List Nat)`.  All indices used by the
solver are in bounds (0..8), so the total `getD`/`set` embedding agrees with
the Python semantics on every access the program performs.

The Python method `recursive_solve` mutates `self.grid` in place and returns a
`bool`.  We embed it state-passing style: the function returns the pair
`(returned bool, grid state at return)`.  The Python recursion has no fuel;
the embedding takes a fuel argument, and we prove (`solveAux_fuel_irrelevant`)
that any fuel strictly larger than the number of empty cells gives the same
result, so `solveTop` (fuel 82 > 81 ≥ number of empty cells) is the function
the Python program computes.
-/

/-! ## Definitions -/

/-- The grid type: `self.grid`, a `list[list[int]]` of 9 rows of 9 digits. -/
abbrev Grid := List (List Nat)

/-- `self.grid[r][c]` (all accesses performed by the program are in bounds). -/
def getCell (g : Grid) (r c : Nat) : Nat := (g.getD r []).getD c 0

/-- `self.grid[r][c] = v` (all writes performed by the program are in bounds). -/
def setCell (g : Grid) (r c v : Nat) : Grid := g.set r ((g.getD r []).set c v)

/-- The grid is a well-formed 9×9 matrix (the invariant a 9-line `load_grid`
output satisfies, and the data-model invariant of the spec). -/
def Valid9 (g : Grid) : Prop := g.length = 9 ∧ ∀ row ∈ g, row.length = 9

/-- Every cell value is at most 9 (cells hold digits 0..9). -/
def CellsLe9 (g : Grid) : Prop := ∀ r c, r < 9 → c < 9 → getCell g r c ≤ 9

/--
`Sudoku.check(digit, position)`.  The Python body unpacks
`col, row = position`, so the local name `col` holds the *first* component of
`position` (the row index the caller passes) and `row` holds the second (the
column index of the caller); the embedding reproduces that naming and the loops
verbatim:

* first loop, `for i in range(9)`:
  `if col != i and self.grid[i][row] == digit: return False`
  `elif row != i and self.grid[col][i] == digit: return False`
* region loop over
  `range(region_col, region_col+3) × range(region_row, region_row+3)`:
  `if self.grid[i][j] == digit and (i, j) != position: return False`
-/
def check (g : Grid) (digit : Nat) (position : Nat × Nat) : Bool :=
  let col := position.1
  let row := position.2
  let region_row := row / 3 * 3
  let region_col := col / 3 * 3
  ((List.range 9).all fun i =>
    !((col != i) && (getCell g i row == digit)) &&
    !((row != i) && (getCell g col i == digit))) &&
  ((List.range' region_col 3).all fun i =>
    (List.range' region_row 3).all fun j =>
      !((getCell g i j == digit) && ((i, j) != position)))

/-- `Sudoku.find_empty_cell`: nested loops `for i in range(9): for j in
range(9): if self.grid[i][j] == 0: return i, j`, else `None`. -/
def findEmptyCell (g : Grid) : Option (Nat × Nat) :=
  (List.range 9).findSome? fun i =>
    (List.range 9).findSome? fun j =>
      if getCell g i j = 0 then some (i, j) else none

/-- The candidate digits `range(1, 10, 1)` tried by `recursive_solve`. -/
def digits : List Nat := [1, 2, 3, 4, 5, 6, 7, 8, 9]

/--
The `for i in range(1, 10, 1)` loop of `recursive_solve`, with the grid state
threaded explicitly.  `solve` is the recursive call at the next depth
(`solveAux fuel`).  For each candidate `d`: if `check` passes, the digit is
placed (`self.grid[row][col] = i`); on a successful recursive call the
success propagates immediately (`return True`); on failure the cell of the
state returned by the recursion is reset (`self.grid[row][col] = 0`) and the
next candidate is tried.  When the candidates run out the loop falls through
to `return False` with the current grid state.
-/
def tryDigits (solve : Grid → Bool × Grid) (r c : Nat) :
    List Nat → Grid → Bool × Grid
  | [], g => (false, g)
  | d :: ds, g =>
    if check g d (r, c) then
      match solve (setCell g r c d) with
      | (true, g2) => (true, g2)
      | (false, g2) => tryDigits solve r c ds (setCell g2 r c 0)
    else
      tryDigits solve r c ds g

/--
`Sudoku.recursive_solve`, with fuel.  Base case: no empty cell ⇒ `True`
(this is also the only point where `self.time` is assigned; the timing field
is modelled separately by `solveAuxT` below).  Otherwise the digit loop runs
on the first empty cell.
-/
def solveAux : Nat → Grid → Bool × Grid
  | 0, g => (false, g)
  | fuel + 1, g =>
    match findEmptyCell g with
    | none => (true, g)
    | some (r, c) => tryDigits (solveAux fuel) r c digits g

/-- Number of empty cells among the 81 board positions. -/
def zeroCount (g : Grid) : Nat :=
  (((List.range 9).product (List.range 9)).filter
    fun p => getCell g p.1 p.2 == 0).length

/-- `Sudoku.solve` / the top-level `recursive_solve()` call: fuel 82 exceeds
the number of board cells, hence (by `solveAux_fuel_irrelevant`) computes the
fuel-free Python recursion.  First component: the solved/unsolvable verdict
(the return value of `recursive_solve()`, which decides which message `solve`
prints); second: the final grid state (`self.grid`, which `solve` returns). -/
def solveTop (g : Grid) : Bool × Grid := solveAux 82 g

/-- Two board positions lie in a common row, column or 3×3 region. -/
def sameUnit (r c r' c' : Nat) : Prop :=
  r = r' ∨ c = c' ∨ (r / 3 = r' / 3 ∧ c / 3 = c' / 3)

instance (r c r' c' : Nat) : Decidable (sameUnit r c r' c') := by
  unfold sameUnit
  infer_instance

/-- `g'` preserves every non-zero (given) cell of `g`. -/
def Extends (g g' : Grid) : Prop :=
  ∀ r c, r < 9 → c < 9 → getCell g r c ≠ 0 → getCell g' r c = getCell g r c

/-- Every board cell is non-zero. -/
def Full (g : Grid) : Prop := ∀ r c, r < 9 → c < 9 → getCell g r c ≠ 0

/-- Every duplicated value in a row, column or region of `g'` was already a
duplicate between two non-zero cells of `g`: the search introduces no new
conflicts. -/
def NoNewConflicts (g g' : Grid) : Prop :=
  ∀ r c r' c', r < 9 → c < 9 → r' < 9 → c' < 9 → (r, c) ≠ (r', c') →
    sameUnit r c r' c' → getCell g' r c ≠ 0 →
    getCell g' r c = getCell g' r' c' →
    getCell g r c ≠ 0 ∧ getCell g r' c' ≠ 0

/-- No two distinct cells of a common row, column or region hold the same
non-zero value. -/
def ConflictFree (g : Grid) : Prop :=
  ∀ r c r' c', r < 9 → c < 9 → r' < 9 → c' < 9 → (r, c) ≠ (r', c') →
    sameUnit r c r' c' → getCell g r c ≠ 0 →
    getCell g r c ≠ getCell g r' c'

/-- `S` is a fully populated, conflict-free grid that preserves the non-zero
cells of `g` — a valid completion of `g` in the sense of the spec. -/
def Completes (S g : Grid) : Prop :=
  Valid9 S ∧ (∀ a b, a < 9 → b < 9 → 1 ≤ getCell S a b ∧ getCell S a b ≤ 9) ∧
  ConflictFree S ∧
  (∀ a b, a < 9 → b < 9 → getCell g a b ≠ 0 → getCell S a b = getCell g a b)

/-- The nine values `vals 0 .. vals 8` are pairwise distinct and are exactly
the set `{1..9}`. -/
def unitExact (vals : Nat → Nat) : Prop :=
  (∀ i j, i < 9 → j < 9 → i ≠ j → vals i ≠ vals j) ∧
  (Finset.range 9).image vals = Finset.Icc 1 9

def g119 : Grid :=
  [[1, 1, 9, 0, 0, 0, 0, 0, 0],
   [0, 0, 0, 0, 0, 0, 0, 0, 0],
   [0, 0, 0, 0, 0, 0, 0, 0, 0],
   [0, 0, 0, 0, 0, 0, 0, 0, 0],
   [0, 0, 0, 0, 0, 0, 0, 0, 0],
   [0, 0, 0, 0, 0, 0, 0, 0, 0],
   [0, 0, 0, 0, 0, 0, 0, 0, 0],
   [0, 0, 0, 0, 0, 0, 0, 0, 0],
   [0, 0, 0, 0, 0, 0, 0, 0, 0]]

/-- The cells of a grid that hold the value 1. -/
def onesSet (G : Grid) : Finset (Nat × Nat) :=
  (Finset.range 9 ×ˢ Finset.range 9).filter fun p => getCell G p.1 p.2 = 1

/-- The test `len(i) != 9 or not i.isdigit()` (negated): a line is good when
it has exactly 9 characters, all decimal digits.  the Python `str.isdigit` method
also accepts some non-ASCII digit characters; the model covers the ASCII
digit sources the program reads. -/
def goodLine (s : String) : Bool := s.length == 9 && s.toList.all Char.isDigit

/-- `[int(x) for x in list(i)]` for a digit string. -/
def lineToRow (s : String) : List Nat := s.toList.map fun ch => ch.toNat - 48

/-- `line.strip()`: drop leading and trailing whitespace (implemented on the
character list so that it reduces in the kernel). -/
def pyStrip (s : String) : String :=
  String.mk (((s.data.dropWhile Char.isWhitespace).reverse.dropWhile
    Char.isWhitespace).reverse)

/-- `data = [l for l in (line.strip() for line in f) if l]`: strip each line,
drop the blank ones. -/
def stripLines (ls : List String) : List String :=
  (ls.map pyStrip).filter fun s => !s.data.isEmpty

/-- The `for i in data` loop of `load_grid`: on the first malformed line `i`
the `ValueError` carries `data.index(i)` — the position of the *first
occurrence* of the string `i` in `data` — and the line itself; otherwise the
parsed row is appended to the grid. -/
def loadLoop (data : List String) :
    List String → Grid → Except (Nat × String) Grid
  | [], acc => .ok acc
  | i :: rest, acc =>
    if goodLine i then loadLoop data rest (acc ++ [lineToRow i])
    else .error (data.indexOf i, i)

/-- `Sudoku.load_grid`, with the text source given as its list of lines.
The result is the grid on success, or the `(row index, row content)` payload
of the `ValueError` on failure (no grid is produced then). -/
def loadGrid (ls : List String) : Except (Nat × String) Grid :=
  loadLoop (stripLines ls) (stripLines ls) []

/-- The digit loop of `recursive_solve` with the `self.time` field threaded
through as an extra rational component (the float arithmetic of Python is
exact at the values the claims concern).  Identical to `tryDigits` otherwise. -/
def tryDigitsT (solve : Grid → ℚ → Bool × Grid × ℚ) (r c : Nat) :
    List Nat → Grid → ℚ → Bool × Grid × ℚ
  | [], g, t => (false, g, t)
  | d :: ds, g, t =>
    if check g d (r, c) then
      match solve (setCell g r c d) t with
      | (true, g2, t2) => (true, g2, t2)
      | (false, g2, t2) => tryDigitsT solve r c ds (setCell g2 r c 0) t2
    else
      tryDigitsT solve r c ds g t

/-- `Sudoku.recursive_solve` with the `self.time` field threaded through:
the base case — and only the base case — assigns it
(`self.time = perf_counter() - self.start`); `τ` stands for the value that
expression would have at the moment the base case is reached.  Identical to
`solveAux` otherwise. -/
def solveAuxT (τ : ℚ) : Nat → Grid → ℚ → Bool × Grid × ℚ
  | 0, g, t => (false, g, t)
  | fuel + 1, g, t =>
    match findEmptyCell g with
    | none => (true, g, τ)
    | some (r, c) => tryDigitsT (solveAuxT τ fuel) r c digits g t

/-- The Python `round` function to an integer: round half to even. -/
def roundHalfEven (q : ℚ) : ℤ :=
  if Int.fract q = 1 / 2 then (if Even ⌊q⌋ then ⌊q⌋ else ⌊q⌋ + 1)
  else round q

/-- `Sudoku.time_taken`: `round(self.time * 1000, 2)`, given the value of the
`self.time` field. -/
def time_taken (t : ℚ) : ℚ := (roundHalfEven (t * 1000 * 100) : ℚ) / 100

instance (g : Grid) : Decidable (Valid9 g) := by
  unfold Valid9
  infer_instance

instance (g : Grid) : Decidable (CellsLe9 g) :=
  decidable_of_iff (∀ r, r < 9 → ∀ c, c < 9 → getCell g r c ≤ 9)
    ⟨fun h r c hr hc => h r hr c hc, fun h r hr c hc => h r c hr hc⟩

instance (g : Grid) : Decidable (Full g) :=
  decidable_of_iff (∀ r, r < 9 → ∀ c, c < 9 → getCell g r c ≠ 0)
    ⟨fun h r c hr hc => h r hr c hc, fun h r hr c hc => h r c hr hc⟩

set_option synthInstance.maxSize 2000 in
set_option synthInstance.maxHeartbeats 1000000 in
instance (g : Grid) : Decidable (ConflictFree g) :=
  decidable_of_iff (∀ r, r < 9 → ∀ c, c < 9 → ∀ r', r' < 9 → ∀ c', c' < 9 →
      (r, c) ≠ (r', c') → sameUnit r c r' c' → getCell g r c ≠ 0 →
      getCell g r c ≠ getCell g r' c')
    ⟨fun h r c r' c' hr hc hr' hc' => h r hr c hc r' hr' c' hc',
     fun h r hr c hc r' hr' c' hc' => h r c r' c' hr hc hr' hc'⟩

set_option synthInstance.maxSize 2000 in
set_option synthInstance.maxHeartbeats 1000000 in
instance (S g : Grid) : Decidable (Completes S g) :=
  decidable_of_iff (Valid9 S ∧
      (∀ a, a < 9 → ∀ b, b < 9 → 1 ≤ getCell S a b ∧ getCell S a b ≤ 9) ∧
      ConflictFree S ∧
      (∀ a, a < 9 → ∀ b, b < 9 → getCell g a b ≠ 0 →
        getCell S a b = getCell g a b))
    ⟨fun ⟨h1, h2, h3, h4⟩ =>
      ⟨h1, fun a b ha hb => h2 a ha b hb, h3, fun a b ha hb => h4 a ha b hb⟩,
     fun ⟨h1, h2, h3, h4⟩ =>
      ⟨h1, fun a ha b hb => h2 a b ha hb, h3, fun a ha b hb => h4 a b ha hb⟩⟩

/-- A complete, conflict-free Sudoku grid. -/
def fullGood : Grid :=
  [[1, 2, 3, 4, 5, 6, 7, 8, 9],
   [4, 5, 6, 7, 8, 9, 1, 2, 3],
   [7, 8, 9, 1, 2, 3, 4, 5, 6],
   [2, 3, 4, 5, 6, 7, 8, 9, 1],
   [5, 6, 7, 8, 9, 1, 2, 3, 4],
   [8, 9, 1, 2, 3, 4, 5, 6, 7],
   [3, 4, 5, 6, 7, 8, 9, 1, 2],
   [6, 7, 8, 9, 1, 2, 3, 4, 5],
   [9, 1, 2, 3, 4, 5, 6, 7, 8]]

/-- `fullGood` with its first cell blanked: a solvable puzzle. -/
def oneEmpty : Grid :=
  [[0, 2, 3, 4, 5, 6, 7, 8, 9],
   [4, 5, 6, 7, 8, 9, 1, 2, 3],
   [7, 8, 9, 1, 2, 3, 4, 5, 6],
   [2, 3, 4, 5, 6, 7, 8, 9, 1],
   [5, 6, 7, 8, 9, 1, 2, 3, 4],
   [8, 9, 1, 2, 3, 4, 5, 6, 7],
   [3, 4, 5, 6, 7, 8, 9, 1, 2],
   [6, 7, 8, 9, 1, 2, 3, 4, 5],
   [9, 1, 2, 3, 4, 5, 6, 7, 8]]

/-- A grid with a duplicate pair of 1s in row 0 whose first empty cell
`(0, 2)` has all nine candidates blocked: the solver rejects it at once. -/
def gBlocked : Grid :=
  [[1, 1, 0, 0, 0, 0, 0, 0, 0],
   [2, 3, 4, 0, 0, 0, 0, 0, 0],
   [5, 6, 7, 0, 0, 0, 0, 0, 0],
   [0, 0, 8, 0, 0, 0, 0, 0, 0],
   [0, 0, 9, 0, 0, 0, 0, 0, 0],
   [0, 0, 0, 0, 0, 0, 0, 0, 0],
   [0, 0, 0, 0, 0, 0, 0, 0, 0],
   [0, 0, 0, 0, 0, 0, 0, 0, 0],
   [0, 0, 0, 0, 0, 0, 0, 0, 0]]

/-- A fully populated grid all of whose cells hold 1. -/
def allOnes : Grid :=
  [[1, 1, 1, 1, 1, 1, 1, 1, 1],
   [1, 1, 1, 1, 1, 1, 1, 1, 1],
   [1, 1, 1, 1, 1, 1, 1, 1, 1],
   [1, 1, 1, 1, 1, 1, 1, 1, 1],
   [1, 1, 1, 1, 1, 1, 1, 1, 1],
   [1, 1, 1, 1, 1, 1, 1, 1, 1],
   [1, 1, 1, 1, 1, 1, 1, 1, 1],
   [1, 1, 1, 1, 1, 1, 1, 1, 1],
   [1, 1, 1, 1, 1, 1, 1, 1, 1]]

/-- A fully populated grid all of whose cells hold 2. -/
def allTwos : Grid :=
  [[2, 2, 2, 2, 2, 2, 2, 2, 2],
   [2, 2, 2, 2, 2, 2, 2, 2, 2],
   [2, 2, 2, 2, 2, 2, 2, 2, 2],
   [2, 2, 2, 2, 2, 2, 2, 2, 2],
   [2, 2, 2, 2, 2, 2, 2, 2, 2],
   [2, 2, 2, 2, 2, 2, 2, 2, 2],
   [2, 2, 2, 2, 2, 2, 2, 2, 2],
   [2, 2, 2, 2, 2, 2, 2, 2, 2],
   [2, 2, 2, 2, 2, 2, 2, 2, 2]]

/-! ## Lemmas -/

theorem getD_set {α} (a d : α) :
    ∀ (l : List α) (i j : Nat),
      (l.set i a).getD j d = if i = j ∧ i < l.length then a else l.getD j d
  | [], i, j => by simp
  | x :: xs, 0, 0 => by simp
  | x :: xs, 0, j + 1 => by simp
  | x :: xs, i + 1, 0 => by simp
  | x :: xs, i + 1, j + 1 => by
    simp only [List.set_cons_succ, List.getD_cons_succ, List.length_cons]
    rw [getD_set a d xs i j]
    congr 1
    simp only [eq_iff_iff]
    omega

theorem list_set_self {α} (l : List α) (i : Nat) (a : α) (h : l[i]? = some a) :
    l.set i a = l := by
  apply List.ext_getElem?
  intro n
  rw [List.getElem?_set]
  split
  · next hin =>
    subst hin
    split
    · next => exact h.symm
    · next hlen =>
      rw [List.getElem?_eq_none (by omega)]
  · rfl

theorem row_length (g : Grid) (hg : Valid9 g) (r : Nat) (hr : r < 9) :
    (g.getD r []).length = 9 := by
  have hlen : r < g.length := by rw [hg.1]; omega
  have h1 : g[r]? = some g[r] := List.getElem?_eq_getElem hlen
  rw [List.getD_eq_getElem?_getD, h1]
  exact hg.2 _ (List.getElem_mem hlen)

theorem valid9_setCell (g : Grid) (r c v : Nat) (hg : Valid9 g) (hr : r < 9) :
    Valid9 (setCell g r c v) := by
  constructor
  · simp [setCell, hg.1]
  · intro row hrow
    rcases List.mem_or_eq_of_mem_set hrow with h | h
    · exact hg.2 _ h
    · subst h
      rw [List.length_set]
      exact row_length g hg r hr

theorem getCell_setCell_self (g : Grid) (r c v : Nat) (hg : Valid9 g)
    (hr : r < 9) (hc : c < 9) : getCell (setCell g r c v) r c = v := by
  have hlen : r < g.length := by rw [hg.1]; omega
  have hrowlen : c < (g.getD r []).length := by rw [row_length g hg r hr]; omega
  unfold getCell setCell
  rw [getD_set, if_pos ⟨rfl, hlen⟩, getD_set, if_pos ⟨rfl, hrowlen⟩]

theorem getCell_setCell_ne (g : Grid) (r c v r' c' : Nat)
    (hne : r ≠ r' ∨ c ≠ c') :
    getCell (setCell g r c v) r' c' = getCell g r' c' := by
  unfold getCell setCell
  rw [getD_set]
  by_cases hrr : r = r' ∧ r < g.length
  · rw [if_pos hrr, getD_set, if_neg]
    · rw [hrr.1]
    · rintro ⟨hcc, -⟩
      rcases hne with h | h
      · exact h hrr.1
      · exact h hcc
  · rw [if_neg hrr]

theorem setCell_cancel (g : Grid) (r c d : Nat) (hg : Valid9 g)
    (hr : r < 9) (hc : c < 9) (h0 : getCell g r c = 0) :
    setCell (setCell g r c d) r c 0 = g := by
  have hlen : r < g.length := by rw [hg.1]; omega
  have hrowlen : c < (g.getD r []).length := by rw [row_length g hg r hr]; omega
  have hrow0 : (g.getD r [])[c]? = some 0 := by
    have h1 : (g.getD r [])[c]? = some (g.getD r [])[c] :=
      List.getElem?_eq_getElem hrowlen
    rw [h1]
    congr 1
    have h2 : getCell g r c = (g.getD r [])[c] := by
      unfold getCell
      rw [List.getD_eq_getElem?_getD, h1, Option.getD_some]
    rw [← h2, h0]
  unfold setCell
  rw [getD_set, if_pos ⟨rfl, by simpa using hlen⟩, List.set_set, List.set_set,
    list_set_self _ _ _ hrow0]
  apply list_set_self
  have h1 : g[r]? = some g[r] := List.getElem?_eq_getElem hlen
  rw [h1, List.getD_eq_getElem?_getD, h1, Option.getD_some]

theorem range_findSome?_eq_none {β} (f : Nat → Option β) (n : Nat) :
    (List.range n).findSome? f = none ↔ ∀ j, j < n → f j = none := by
  rw [List.findSome?_eq_none_iff]
  constructor
  · intro h j hj
    exact h j (List.mem_range.mpr hj)
  · intro h x hx
    exact h x (List.mem_range.mp hx)

theorem range_findSome?_first {β} (f : Nat → Option β) :
    ∀ (n : Nat) (b : β), (List.range n).findSome? f = some b →
      ∃ k, k < n ∧ f k = some b ∧ ∀ j, j < k → f j = none
  | 0, b => by simp
  | n + 1, b => by
    intro h
    rw [List.range_succ, List.findSome?_append] at h
    cases h1 : (List.range n).findSome? f with
    | some b' =>
      rw [h1] at h
      simp only [Option.or_some] at h
      obtain ⟨k, hk, hfk, hprev⟩ := range_findSome?_first f n b' h1
      cases h
      exact ⟨k, by omega, hfk, hprev⟩
    | none =>
      rw [h1] at h
      simp only [Option.none_or, List.findSome?_cons, List.findSome?_nil] at h
      refine ⟨n, by omega, ?_, ?_⟩
      · cases h2 : f n <;> rw [h2] at h <;> simp_all
      · intro j hj
        exact (range_findSome?_eq_none f n).mp h1 j hj

theorem range_findSome?_of_first {β} (f : Nat → Option β) :
    ∀ (n : Nat) (k : Nat) (b : β), k < n → (∀ j, j < k → f j = none) →
      f k = some b → (List.range n).findSome? f = some b
  | 0, k, b => by omega
  | n + 1, k, b => by
    intro hk hnone hfk
    rw [List.range_succ, List.findSome?_append]
    by_cases hkn : k < n
    · rw [range_findSome?_of_first f n k b hkn hnone hfk]
      rfl
    · have hkeq : k = n := by omega
      subst hkeq
      rw [(range_findSome?_eq_none f k).mpr hnone]
      simp [hfk]

theorem findEmptyCell_eq_some_iff (g : Grid) (r c : Nat) :
    findEmptyCell g = some (r, c) ↔
      r < 9 ∧ c < 9 ∧ getCell g r c = 0 ∧
        ∀ r' c', r' < 9 → c' < 9 → (r' < r ∨ (r' = r ∧ c' < c)) →
          getCell g r' c' ≠ 0 := by
  constructor
  · intro h
    obtain ⟨k, hk9, hfk, hprev⟩ := range_findSome?_first _ 9 (r, c) h
    obtain ⟨m, hm9, hfm, hprev2⟩ := range_findSome?_first _ 9 (r, c) hfk
    by_cases hzero : getCell g k m = 0
    · rw [if_pos hzero] at hfm
      obtain ⟨hrk, hcm⟩ : k = r ∧ m = c := by
        cases hfm
        exact ⟨rfl, rfl⟩
      subst hrk
      subst hcm
      refine ⟨hk9, hm9, hzero, ?_⟩
      rintro r' c' hr' hc' (hlt | ⟨rfl, hlt⟩)
      · intro h0
        have := (range_findSome?_eq_none _ 9).mp (hprev r' hlt) c' hc'
        rw [if_pos h0] at this
        cases this
      · intro h0
        have := hprev2 c' hlt
        rw [if_pos h0] at this
        cases this
    · rw [if_neg hzero] at hfm
      cases hfm
  · rintro ⟨hr, hc, hzero, hfirst⟩
    apply range_findSome?_of_first _ 9 r _ hr
    · intro i hi
      apply (range_findSome?_eq_none _ 9).mpr
      intro j hj
      rw [if_neg (hfirst i j (by omega) hj (Or.inl hi))]
    · apply range_findSome?_of_first _ 9 c _ hc
      · intro j hj
        rw [if_neg (hfirst r j (by omega) (by omega) (Or.inr ⟨rfl, hj⟩))]
      · rw [if_pos hzero]

theorem findEmptyCell_eq_none_iff (g : Grid) :
    findEmptyCell g = none ↔ ∀ r c, r < 9 → c < 9 → getCell g r c ≠ 0 := by
  unfold findEmptyCell
  rw [range_findSome?_eq_none]
  constructor
  · intro h r c hr hc h0
    have := (range_findSome?_eq_none _ 9).mp (h r hr) c hc
    rw [if_pos h0] at this
    cases this
  · intro h i hi
    apply (range_findSome?_eq_none _ 9).mpr
    intro j hj
    rw [if_neg (h i j hi hj)]

theorem findEmptyCell_some (g : Grid) (r c : Nat)
    (h : findEmptyCell g = some (r, c)) :
    r < 9 ∧ c < 9 ∧ getCell g r c = 0 := by
  obtain ⟨h1, h2, h3, -⟩ := (findEmptyCell_eq_some_iff g r c).mp h
  exact ⟨h1, h2, h3⟩

theorem check_eq_true_iff (g : Grid) (d r c : Nat) :
    check g d (r, c) = true ↔
      (∀ i, i < 9 → i ≠ r → getCell g i c ≠ d) ∧
      (∀ j, j < 9 → j ≠ c → getCell g r j ≠ d) ∧
      (∀ i j, 3 * (r / 3) ≤ i → i < 3 * (r / 3) + 3 → 3 * (c / 3) ≤ j →
        j < 3 * (c / 3) + 3 → (i, j) ≠ (r, c) → getCell g i j ≠ d) := by
  unfold check
  simp only [List.all_eq_true, List.mem_range, List.mem_range', Bool.and_eq_true,
    Bool.not_eq_true', Bool.and_eq_false_iff, bne_eq_false_iff_eq,
    beq_eq_false_iff_ne, ne_eq]
  constructor
  · rintro ⟨h1, h2⟩
    refine ⟨?_, ?_, ?_⟩
    · intro i hi hir hcell
      rcases (h1 i hi).1 with h | h
      · exact hir h.symm
      · exact h hcell
    · intro j hj hjc hcell
      rcases (h1 j hj).2 with h | h
      · exact hjc h.symm
      · exact h hcell
    · intro i j hi1 hi2 hj1 hj2 hne hcell
      have hi : ∃ a, a < 3 ∧ i = r / 3 * 3 + 1 * a := ⟨i - r / 3 * 3, by omega⟩
      have hj : ∃ a, a < 3 ∧ j = c / 3 * 3 + 1 * a := ⟨j - c / 3 * 3, by omega⟩
      rcases h2 i hi j hj with h | h
      · exact h hcell
      · exact hne h
  · rintro ⟨hcol, hrow, hreg⟩
    constructor
    · intro i hi
      constructor
      · by_cases hir : r = i
        · exact Or.inl hir
        · exact Or.inr (hcol i hi (fun h => hir h.symm))
      · by_cases hjc : c = i
        · exact Or.inl hjc
        · exact Or.inr (hrow i hi (fun h => hjc h.symm))
    · rintro i ⟨a, ha, rfl⟩ j ⟨b, hb, rfl⟩
      by_cases hne : (r / 3 * 3 + 1 * a, c / 3 * 3 + 1 * b) = (r, c)
      · exact Or.inr hne
      · exact Or.inl (hreg _ _ (by omega) (by omega) (by omega) (by omega) hne)

theorem check_eq_true_iff_unit (g : Grid) (d r c : Nat) (hr : r < 9)
    (hc : c < 9) :
    check g d (r, c) = true ↔
      ∀ r' c', r' < 9 → c' < 9 → (r', c') ≠ (r, c) → sameUnit r c r' c' →
        getCell g r' c' ≠ d := by
  rw [check_eq_true_iff]
  constructor
  · rintro ⟨hcol, hrow, hreg⟩ r' c' hr' hc' hne hunit
    rcases hunit with h | h | ⟨h1, h2⟩
    · subst h
      apply hrow c' hc'
      intro hcc
      exact hne (by rw [hcc])
    · subst h
      apply hcol r' hr'
      intro hrr
      exact hne (by rw [hrr])
    · exact hreg r' c' (by omega) (by omega) (by omega) (by omega) hne
  · intro h
    refine ⟨?_, ?_, ?_⟩
    · intro i hi hir
      exact h i c hi hc (by simp [Prod.ext_iff, hir]) (Or.inr (Or.inl rfl))
    · intro j hj hjc
      exact h r j hr hj (by simp [Prod.ext_iff, hjc]) (Or.inl rfl)
    · intro i j hi1 hi2 hj1 hj2 hne
      exact h i j (by omega) (by omega) hne (Or.inr (Or.inr (by omega)))

theorem countP_lt_of_pointwise {α} (p q : α → Bool) :
    ∀ l : List α, (∀ x ∈ l, q x = true → p x = true) →
      ∀ x₀, x₀ ∈ l → p x₀ = true → q x₀ = false →
        l.countP q < l.countP p := by
  intro l
  induction l with
  | nil =>
    intro _ x₀ hx₀
    cases hx₀
  | cons a l ih =>
    intro hpq x₀ hx₀ hp hq
    rw [List.countP_cons, List.countP_cons]
    have hmono : l.countP q ≤ l.countP p :=
      List.countP_mono_left fun x hx => hpq x (List.mem_cons_of_mem a hx)
    rcases List.mem_cons.mp hx₀ with h | hx₀
    · have hpa : p a = true := h ▸ hp
      have hqa : q a = false := h ▸ hq
      simp only [hpa, hqa]
      simp only [Bool.false_eq_true, if_false, if_true]
      omega
    · have hlt : l.countP q < l.countP p :=
        ih (fun x hx => hpq x (List.mem_cons_of_mem a hx)) x₀ hx₀ hp hq
      by_cases hqa : q a = true
      · have hpa : p a = true := hpq a (List.mem_cons_self a l) hqa
        simp only [hpa, hqa, if_true]
        omega
      · rw [Bool.not_eq_true] at hqa
        simp only [hqa, Bool.false_eq_true, if_false]
        split <;> omega

theorem mem_cells_iff (p : Nat × Nat) :
    p ∈ (List.range 9).product (List.range 9) ↔ p.1 < 9 ∧ p.2 < 9 := by
  cases p with
  | mk a b =>
    simp [List.product, List.mem_range]

theorem zeroCount_le_81 (g : Grid) : zeroCount g ≤ 81 := by
  unfold zeroCount
  calc (((List.range 9).product (List.range 9)).filter
      fun p => getCell g p.1 p.2 == 0).length
      ≤ ((List.range 9).product (List.range 9)).length :=
        List.length_filter_le _ _
    _ = 81 := by decide

theorem zeroCount_setCell_lt (g : Grid) (r c d : Nat) (hg : Valid9 g)
    (hr : r < 9) (hc : c < 9) (h0 : getCell g r c = 0) (hd : d ≠ 0) :
    zeroCount (setCell g r c d) < zeroCount g := by
  unfold zeroCount
  rw [← List.countP_eq_length_filter, ← List.countP_eq_length_filter]
  apply countP_lt_of_pointwise _ _ _ ?_ (r, c) ?_ ?_ ?_
  · intro x hx hq
    by_cases hxr : x.1 = r ∧ x.2 = c
    · rw [beq_iff_eq] at hq
      rw [hxr.1, hxr.2] at hq
      rw [getCell_setCell_self g r c d hg hr hc] at hq
      exact absurd hq hd
    · rw [beq_iff_eq] at hq ⊢
      rw [← getCell_setCell_ne g r c d x.1 x.2 (by tauto)]
      exact hq
  · exact (mem_cells_iff (r, c)).mpr ⟨hr, hc⟩
  · rw [beq_iff_eq]
    exact h0
  · rw [← Bool.not_eq_true, beq_iff_eq]
    rw [getCell_setCell_self g r c d hg hr hc]
    exact hd

theorem tryDigits_nil (solve : Grid → Bool × Grid) (r c : Nat) (g : Grid) :
    tryDigits solve r c [] g = (false, g) := rfl

theorem tryDigits_cons_nocheck (solve : Grid → Bool × Grid) (r c d : Nat)
    (ds : List Nat) (g : Grid) (h : check g d (r, c) = false) :
    tryDigits solve r c (d :: ds) g = tryDigits solve r c ds g := by
  conv_lhs => unfold tryDigits
  rw [if_neg (by rw [h]; exact Bool.false_ne_true)]

theorem tryDigits_cons_true (solve : Grid → Bool × Grid) (r c d : Nat)
    (ds : List Nat) (g g2 : Grid) (h : check g d (r, c) = true)
    (hres : solve (setCell g r c d) = (true, g2)) :
    tryDigits solve r c (d :: ds) g = (true, g2) := by
  conv_lhs => unfold tryDigits
  rw [if_pos h, hres]

theorem tryDigits_cons_false (solve : Grid → Bool × Grid) (r c d : Nat)
    (ds : List Nat) (g g2 : Grid) (h : check g d (r, c) = true)
    (hres : solve (setCell g r c d) = (false, g2)) :
    tryDigits solve r c (d :: ds) g =
      tryDigits solve r c ds (setCell g2 r c 0) := by
  conv_lhs => unfold tryDigits
  rw [if_pos h, hres]

theorem solveAux_zero (g : Grid) : solveAux 0 g = (false, g) := rfl

theorem solveAux_succ_none (fuel : Nat) (g : Grid)
    (h : findEmptyCell g = none) : solveAux (fuel + 1) g = (true, g) := by
  unfold solveAux
  rw [h]

theorem solveAux_succ_some (fuel : Nat) (g : Grid) (r c : Nat)
    (h : findEmptyCell g = some (r, c)) :
    solveAux (fuel + 1) g = tryDigits (solveAux fuel) r c digits g := by
  unfold solveAux
  rw [h]

theorem tryDigits_false_eq (fuel : Nat) (r c : Nat) (hr : r < 9) (hc : c < 9)
    (hsolve : ∀ g', Valid9 g' → (solveAux fuel g').1 = false →
      (solveAux fuel g').2 = g') :
    ∀ (ds : List Nat) (g : Grid), Valid9 g → getCell g r c = 0 →
      (tryDigits (solveAux fuel) r c ds g).1 = false →
      (tryDigits (solveAux fuel) r c ds g).2 = g := by
  intro ds
  induction ds with
  | nil =>
    intro g _ _ _
    rw [tryDigits_nil]
  | cons d ds ih =>
    intro g hg h0 hfalse
    by_cases hchk : check g d (r, c) = true
    · cases hres : solveAux fuel (setCell g r c d) with
      | mk b g2 =>
        cases b with
        | true =>
          rw [tryDigits_cons_true _ r c d ds g g2 hchk hres] at hfalse
          cases hfalse
        | false =>
          have hg2 : g2 = setCell g r c d := by
            have h1 := hsolve (setCell g r c d)
              (valid9_setCell g r c d hg hr) (by rw [hres])
            rw [hres] at h1
            exact h1
          rw [tryDigits_cons_false _ r c d ds g g2 hchk hres] at hfalse ⊢
          rw [hg2, setCell_cancel g r c d hg hr hc h0] at hfalse ⊢
          exact ih g hg h0 hfalse
    · rw [Bool.not_eq_true] at hchk
      rw [tryDigits_cons_nocheck _ r c d ds g hchk] at hfalse ⊢
      exact ih g hg h0 hfalse

theorem solveAux_false_eq :
    ∀ (fuel : Nat) (g : Grid), Valid9 g → (solveAux fuel g).1 = false →
      (solveAux fuel g).2 = g := by
  intro fuel
  induction fuel with
  | zero =>
    intro g _ _
    rw [solveAux_zero]
  | succ fuel ih =>
    intro g hg hfalse
    cases hfind : findEmptyCell g with
    | none =>
      rw [solveAux_succ_none fuel g hfind] at hfalse
      cases hfalse
    | some rc =>
      cases rc with
      | mk r c =>
        obtain ⟨hr, hc, h0⟩ := findEmptyCell_some g r c hfind
        rw [solveAux_succ_some fuel g r c hfind] at hfalse ⊢
        exact tryDigits_false_eq fuel r c hr hc ih digits g hg h0 hfalse

theorem extends_refl (g : Grid) : Extends g g := fun _ _ _ _ _ => rfl

theorem extends_trans (g g₁ g₂ : Grid) (h1 : Extends g g₁)
    (h2 : Extends g₁ g₂) : Extends g g₂ := by
  intro r c hr hc hnz
  rw [← h1 r c hr hc hnz]
  apply h2 r c hr hc
  rw [h1 r c hr hc hnz]
  exact hnz

theorem extends_setCell (g : Grid) (r c d : Nat) (h0 : getCell g r c = 0) :
    Extends g (setCell g r c d) := by
  intro a b _ _ hnz
  apply getCell_setCell_ne
  by_contra hcon
  push_neg at hcon
  rw [hcon.1, hcon.2] at h0
  exact hnz h0

theorem sameUnit_symm (r c r' c' : Nat) (h : sameUnit r c r' c') :
    sameUnit r' c' r c := by
  unfold sameUnit at h ⊢
  tauto

theorem cellsLe9_setCell (g : Grid) (r c d : Nat) (hg : Valid9 g) (hr : r < 9)
    (hc : c < 9) (hle : CellsLe9 g) (hd : d ≤ 9) :
    CellsLe9 (setCell g r c d) := by
  intro a b ha hb
  by_cases hab : r = a ∧ c = b
  · rw [← hab.1, ← hab.2, getCell_setCell_self g r c d hg hr hc]
    exact hd
  · rw [getCell_setCell_ne g r c d a b (by tauto)]
    exact hle a b ha hb

theorem noNewConflicts_step (g : Grid) (r c d : Nat) (hg : Valid9 g)
    (hr : r < 9) (hc : c < 9) (h0 : getCell g r c = 0) (hd : d ≠ 0)
    (hchk : check g d (r, c) = true) (g' : Grid)
    (hext : Extends (setCell g r c d) g')
    (hnn : NoNewConflicts (setCell g r c d) g') : NoNewConflicts g g' := by
  have hchk' := (check_eq_true_iff_unit g d r c hr hc).mp hchk
  have hget : getCell (setCell g r c d) r c = d :=
    getCell_setCell_self g r c d hg hr hc
  intro a b a' b' ha hb ha' hb' hne hunit hnz heq
  obtain ⟨h1, h2⟩ := hnn a b a' b' ha hb ha' hb' hne hunit hnz heq
  by_cases hab : a = r ∧ b = c
  · obtain ⟨rfl, rfl⟩ := hab
    exfalso
    have hab' : (a', b') ≠ (a, b) := fun hcon => hne hcon.symm
    have hne2 : a ≠ a' ∨ b ≠ b' := by
      by_contra hcon
      push_neg at hcon
      exact hne (by rw [hcon.1, hcon.2])
    have hcell : getCell (setCell g a b d) a' b' = getCell g a' b' :=
      getCell_setCell_ne g a b d a' b' hne2
    have hnz2 : getCell g a' b' ≠ 0 := by rwa [hcell] at h2
    have hG'ab : getCell g' a b = d := by
      rw [hext a b ha hb (by rw [hget]; exact hd), hget]
    have hG'a'b' : getCell g' a' b' = getCell g a' b' := by
      rw [← hcell]
      exact hext a' b' ha' hb' h2
    apply hchk' a' b' ha' hb' hab' hunit
    rw [← hG'a'b', ← heq, hG'ab]
  · by_cases hab2 : a' = r ∧ b' = c
    · obtain ⟨rfl, rfl⟩ := hab2
      exfalso
      have habne : (a, b) ≠ (a', b') := hne
      have hne2 : a' ≠ a ∨ b' ≠ b := by
        by_contra hcon
        push_neg at hcon
        exact hne (by rw [hcon.1, hcon.2])
      have hcell : getCell (setCell g a' b' d) a b = getCell g a b :=
        getCell_setCell_ne g a' b' d a b hne2
      have hnz2 : getCell g a b ≠ 0 := by rwa [hcell] at h1
      have hG'a'b' : getCell g' a' b' = d := by
        rw [hext a' b' ha' hb' (by rw [hget]; exact hd), hget]
      have hG'ab : getCell g' a b = getCell g a b := by
        rw [← hcell]
        exact hext a b ha hb h1
      apply hchk' a b ha hb habne (sameUnit_symm a b a' b' hunit)
      rw [← hG'ab, heq, hG'a'b']
    · have hne1 : r ≠ a ∨ c ≠ b := by
        by_contra hcon
        push_neg at hcon
        exact hab ⟨hcon.1.symm, hcon.2.symm⟩
      have hne2 : r ≠ a' ∨ c ≠ b' := by
        by_contra hcon
        push_neg at hcon
        exact hab2 ⟨hcon.1.symm, hcon.2.symm⟩
      constructor
      · rwa [getCell_setCell_ne g r c d a b hne1] at h1
      · rwa [getCell_setCell_ne g r c d a' b' hne2] at h2

theorem tryDigits_true_props (fuel : Nat) (r c : Nat) (hr : r < 9) (hc : c < 9)
    (hsound : ∀ g', Valid9 g' → (solveAux fuel g').1 = true →
      Valid9 (solveAux fuel g').2 ∧ Extends g' (solveAux fuel g').2 ∧
      Full (solveAux fuel g').2 ∧ NoNewConflicts g' (solveAux fuel g').2 ∧
      (CellsLe9 g' → CellsLe9 (solveAux fuel g').2)) :
    ∀ (ds : List Nat) (g : Grid), Valid9 g → getCell g r c = 0 →
      (∀ d ∈ ds, 1 ≤ d ∧ d ≤ 9) →
      (tryDigits (solveAux fuel) r c ds g).1 = true →
      Valid9 (tryDigits (solveAux fuel) r c ds g).2 ∧
      Extends g (tryDigits (solveAux fuel) r c ds g).2 ∧
      Full (tryDigits (solveAux fuel) r c ds g).2 ∧
      NoNewConflicts g (tryDigits (solveAux fuel) r c ds g).2 ∧
      (CellsLe9 g → CellsLe9 (tryDigits (solveAux fuel) r c ds g).2) := by
  intro ds
  induction ds with
  | nil =>
    intro g _ _ _ htrue
    rw [tryDigits_nil] at htrue
    cases htrue
  | cons d ds ih =>
    intro g hg h0 hds htrue
    have hd1 : 1 ≤ d := (hds d (List.mem_cons_self d ds)).1
    have hd9 : d ≤ 9 := (hds d (List.mem_cons_self d ds)).2
    have hds' : ∀ x ∈ ds, 1 ≤ x ∧ x ≤ 9 :=
      fun x hx => hds x (List.mem_cons_of_mem d hx)
    by_cases hchk : check g d (r, c) = true
    · cases hres : solveAux fuel (setCell g r c d) with
      | mk b g2 =>
        cases b with
        | true =>
          rw [tryDigits_cons_true _ r c d ds g g2 hchk hres] at htrue ⊢
          have hg1 : Valid9 (setCell g r c d) := valid9_setCell g r c d hg hr
          obtain ⟨hv, hext, hfull, hnn, hle⟩ :=
            hsound (setCell g r c d) hg1 (by rw [hres])
          rw [hres] at hv hext hfull hnn hle
          refine ⟨hv, ?_, hfull, ?_, ?_⟩
          · exact extends_trans g (setCell g r c d) g2
              (extends_setCell g r c d h0) hext
          · exact noNewConflicts_step g r c d hg hr hc h0 (by omega) hchk g2
              hext hnn
          · intro hle9
            exact hle (cellsLe9_setCell g r c d hg hr hc hle9 hd9)
        | false =>
          have hg2 : g2 = setCell g r c d := by
            have h1 := solveAux_false_eq fuel (setCell g r c d)
              (valid9_setCell g r c d hg hr) (by rw [hres])
            rw [hres] at h1
            exact h1
          rw [tryDigits_cons_false _ r c d ds g g2 hchk hres, hg2,
            setCell_cancel g r c d hg hr hc h0] at htrue ⊢
          exact ih g hg h0 hds' htrue
    · rw [Bool.not_eq_true] at hchk
      rw [tryDigits_cons_nocheck _ r c d ds g hchk] at htrue ⊢
      exact ih g hg h0 hds' htrue

theorem solveAux_true_props :
    ∀ (fuel : Nat) (g : Grid), Valid9 g → (solveAux fuel g).1 = true →
      Valid9 (solveAux fuel g).2 ∧ Extends g (solveAux fuel g).2 ∧
      Full (solveAux fuel g).2 ∧ NoNewConflicts g (solveAux fuel g).2 ∧
      (CellsLe9 g → CellsLe9 (solveAux fuel g).2) := by
  intro fuel
  induction fuel with
  | zero =>
    intro g _ htrue
    cases htrue
  | succ fuel ih =>
    intro g hg htrue
    cases hfind : findEmptyCell g with
    | none =>
      rw [solveAux_succ_none fuel g hfind] at htrue ⊢
      refine ⟨hg, extends_refl g, ?_, ?_, fun h => h⟩
      · exact (findEmptyCell_eq_none_iff g).mp hfind
      · intro a b a' b' ha hb ha' hb' _ _ hnz heq
        exact ⟨hnz, by rw [← heq]; exact hnz⟩
    | some rc =>
      cases rc with
      | mk r c =>
        obtain ⟨hr, hc, h0⟩ := findEmptyCell_some g r c hfind
        rw [solveAux_succ_some fuel g r c hfind] at htrue ⊢
        exact tryDigits_true_props fuel r c hr hc ih digits g hg h0
          (by intro x hx; unfold digits at hx; fin_cases hx <;> omega) htrue

theorem mem_digits (d : Nat) (h1 : 1 ≤ d) (h9 : d ≤ 9) : d ∈ digits := by
  unfold digits
  interval_cases d <;> simp

theorem check_of_completion (g S : Grid) (r c : Nat) (hr : r < 9) (hc : c < 9)
    (h0 : getCell g r c = 0) (hcomp : Completes S g) :
    check g (getCell S r c) (r, c) = true := by
  obtain ⟨hSv, hS9, hScf, hSext⟩ := hcomp
  rw [check_eq_true_iff_unit g _ r c hr hc]
  intro r' c' hr' hc' hne hunit heq
  have hd1 : 1 ≤ getCell S r c := (hS9 r c hr hc).1
  have hnz' : getCell g r' c' ≠ 0 := by
    rw [heq]
    omega
  have hSr' : getCell S r' c' = getCell S r c := by
    rw [hSext r' c' hr' hc' hnz', heq]
  exact hScf r c r' c' hr hc hr' hc' (fun hcon => hne hcon.symm) hunit
    (by omega) hSr'.symm

theorem completes_setCell (S g : Grid) (r c : Nat) (hg : Valid9 g)
    (hr : r < 9) (hc : c < 9) (hcomp : Completes S g) :
    Completes S (setCell g r c (getCell S r c)) := by
  obtain ⟨hSv, hS9, hScf, hSext⟩ := hcomp
  refine ⟨hSv, hS9, hScf, ?_⟩
  intro a b ha hb hnz
  by_cases hab : r = a ∧ c = b
  · rw [← hab.1, ← hab.2, getCell_setCell_self g r c _ hg hr hc]
  · rw [getCell_setCell_ne g r c _ a b (by tauto)] at hnz ⊢
    exact hSext a b ha hb hnz

theorem tryDigits_complete (fuel : Nat) (r c : Nat) (hr : r < 9) (hc : c < 9) :
    ∀ (ds : List Nat) (g : Grid), Valid9 g → getCell g r c = 0 →
      ∀ d, d ∈ ds → check g d (r, c) = true →
        (solveAux fuel (setCell g r c d)).1 = true →
        (tryDigits (solveAux fuel) r c ds g).1 = true := by
  intro ds
  induction ds with
  | nil =>
    intro g _ _ d hd
    cases hd
  | cons d₀ ds ih =>
    intro g hg h0 d hd hchk hsolve
    rcases List.mem_cons.mp hd with rfl | hd
    · cases hres : solveAux fuel (setCell g r c d) with
      | mk b g2 =>
        cases b with
        | true =>
          rw [tryDigits_cons_true _ r c d ds g g2 hchk hres]
        | false =>
          rw [hres] at hsolve
          cases hsolve
    · by_cases hchk0 : check g d₀ (r, c) = true
      · cases hres : solveAux fuel (setCell g r c d₀) with
        | mk b g2 =>
          cases b with
          | true =>
            rw [tryDigits_cons_true _ r c d₀ ds g g2 hchk0 hres]
          | false =>
            have hg2 : g2 = setCell g r c d₀ := by
              have h1 := solveAux_false_eq fuel (setCell g r c d₀)
                (valid9_setCell g r c d₀ hg hr) (by rw [hres])
              rw [hres] at h1
              exact h1
            rw [tryDigits_cons_false _ r c d₀ ds g g2 hchk0 hres, hg2,
              setCell_cancel g r c d₀ hg hr hc h0]
            exact ih g hg h0 d hd hchk hsolve
      · rw [Bool.not_eq_true] at hchk0
        rw [tryDigits_cons_nocheck _ r c d₀ ds g hchk0]
        exact ih g hg h0 d hd hchk hsolve

theorem solveAux_complete :
    ∀ (fuel : Nat) (g : Grid), Valid9 g → zeroCount g < fuel →
      (∃ S, Completes S g) → (solveAux fuel g).1 = true := by
  intro fuel
  induction fuel with
  | zero =>
    intro g _ hzc
    omega
  | succ fuel ih =>
    intro g hg hzc hex
    cases hfind : findEmptyCell g with
    | none =>
      rw [solveAux_succ_none fuel g hfind]
    | some rc =>
      cases rc with
      | mk r c =>
        obtain ⟨hr, hc, h0⟩ := findEmptyCell_some g r c hfind
        obtain ⟨S, hcomp⟩ := hex
        have hd1 : 1 ≤ getCell S r c := (hcomp.2.1 r c hr hc).1
        have hd9 : getCell S r c ≤ 9 := (hcomp.2.1 r c hr hc).2
        have hchk : check g (getCell S r c) (r, c) = true :=
          check_of_completion g S r c hr hc h0 hcomp
        have hg1 : Valid9 (setCell g r c (getCell S r c)) :=
          valid9_setCell g r c _ hg hr
        have hzc1 : zeroCount (setCell g r c (getCell S r c)) < fuel := by
          have := zeroCount_setCell_lt g r c (getCell S r c) hg hr hc h0
            (by omega)
          omega
        have hsolve : (solveAux fuel (setCell g r c (getCell S r c))).1 = true :=
          ih (setCell g r c (getCell S r c)) hg1 hzc1
            ⟨S, completes_setCell S g r c hg hr hc hcomp⟩
        rw [solveAux_succ_some fuel g r c hfind]
        exact tryDigits_complete fuel r c hr hc digits g hg h0 (getCell S r c)
          (mem_digits _ hd1 hd9) hchk hsolve

theorem tryDigits_fuel_congr (a b : Nat) (r c : Nat) (hr : r < 9) (hc : c < 9)
    (hih : ∀ g', Valid9 g' → zeroCount g' < a → zeroCount g' < b →
      solveAux a g' = solveAux b g') :
    ∀ (ds : List Nat) (g : Grid), Valid9 g → getCell g r c = 0 →
      (∀ d ∈ ds, 1 ≤ d ∧ d ≤ 9) → zeroCount g ≤ a → zeroCount g ≤ b →
      tryDigits (solveAux a) r c ds g = tryDigits (solveAux b) r c ds g := by
  intro ds
  induction ds with
  | nil =>
    intro g _ _ _ _ _
    rw [tryDigits_nil, tryDigits_nil]
  | cons d ds ih =>
    intro g hg h0 hds ha hb
    have hd1 : 1 ≤ d := (hds d (List.mem_cons_self d ds)).1
    have hds' : ∀ x ∈ ds, 1 ≤ x ∧ x ≤ 9 :=
      fun x hx => hds x (List.mem_cons_of_mem d hx)
    by_cases hchk : check g d (r, c) = true
    · have hzc : zeroCount (setCell g r c d) < zeroCount g :=
        zeroCount_setCell_lt g r c d hg hr hc h0 (by omega)
      have heq : solveAux a (setCell g r c d) = solveAux b (setCell g r c d) :=
        hih (setCell g r c d) (valid9_setCell g r c d hg hr) (by omega)
          (by omega)
      cases hres : solveAux a (setCell g r c d) with
      | mk b' g2 =>
        cases b' with
        | true =>
          rw [tryDigits_cons_true _ r c d ds g g2 hchk hres,
            tryDigits_cons_true _ r c d ds g g2 hchk (by rw [← heq, hres])]
        | false =>
          have hg2 : g2 = setCell g r c d := by
            have h1 := solveAux_false_eq a (setCell g r c d)
              (valid9_setCell g r c d hg hr) (by rw [hres])
            rw [hres] at h1
            exact h1
          rw [tryDigits_cons_false _ r c d ds g g2 hchk hres,
            tryDigits_cons_false _ r c d ds g g2 hchk (by rw [← heq, hres]),
            hg2, setCell_cancel g r c d hg hr hc h0]
          exact ih g hg h0 hds' ha hb
    · rw [Bool.not_eq_true] at hchk
      rw [tryDigits_cons_nocheck _ r c d ds g hchk,
        tryDigits_cons_nocheck _ r c d ds g hchk]
      exact ih g hg h0 hds' ha hb

theorem solveAux_fuel_irrelevant :
    ∀ (f₁ f₂ : Nat) (g : Grid), Valid9 g → zeroCount g < f₁ →
      zeroCount g < f₂ → solveAux f₁ g = solveAux f₂ g := by
  intro f₁
  induction f₁ using Nat.strong_induction_on with
  | _ f₁ ih =>
    intro f₂ g hg h1 h2
    cases f₁ with
    | zero => omega
    | succ a =>
      cases f₂ with
      | zero => omega
      | succ b =>
        cases hfind : findEmptyCell g with
        | none =>
          rw [solveAux_succ_none a g hfind, solveAux_succ_none b g hfind]
        | some rc =>
          cases rc with
          | mk r c =>
            obtain ⟨hr, hc, h0⟩ := findEmptyCell_some g r c hfind
            rw [solveAux_succ_some a g r c hfind,
              solveAux_succ_some b g r c hfind]
            apply tryDigits_fuel_congr a b r c hr hc ?_ digits g hg h0 ?_
              (by omega) (by omega)
            · intro g' hg' ha' hb'
              exact ih a (by omega) b g' hg' ha' hb'
            · intro x hx
              unfold digits at hx
              fin_cases hx <;> omega

theorem unitExact_of (vals : Nat → Nat)
    (hbound : ∀ i, i < 9 → 1 ≤ vals i ∧ vals i ≤ 9)
    (hdist : ∀ i j, i < 9 → j < 9 → i ≠ j → vals i ≠ vals j) :
    unitExact vals := by
  refine ⟨hdist, ?_⟩
  apply Finset.eq_of_subset_of_card_le
  · intro x hx
    rw [Finset.mem_image] at hx
    obtain ⟨i, hi, rfl⟩ := hx
    rw [Finset.mem_range] at hi
    rw [Finset.mem_Icc]
    exact hbound i hi
  · rw [Nat.card_Icc]
    rw [Finset.card_image_of_injOn]
    · rw [Finset.card_range]
    · intro x hx y hy hxy
      rw [Finset.mem_coe, Finset.mem_range] at hx hy
      by_contra hne
      exact hdist x y hx hy hne hxy

theorem conflictFree_of_noNew (g g' : Grid) (hcf : ConflictFree g)
    (hext : Extends g g') (hnn : NoNewConflicts g g') : ConflictFree g' := by
  intro a b a' b' ha hb ha' hb' hne hunit hnz
  intro heq
  obtain ⟨h1, h2⟩ := hnn a b a' b' ha hb ha' hb' hne hunit hnz heq
  have e1 : getCell g' a b = getCell g a b := hext a b ha hb h1
  have e2 : getCell g' a' b' = getCell g a' b' := hext a' b' ha' hb' h2
  apply hcf a b a' b' ha hb ha' hb' hne hunit h1
  rw [← e1, ← e2, heq]

theorem rows_exact (g' : Grid) (hfull : Full g') (hle : CellsLe9 g')
    (hcf : ConflictFree g') :
    ∀ r, r < 9 → unitExact (fun c => getCell g' r c) := by
  intro r hr
  apply unitExact_of
  · intro i hi
    have h1 := hfull r i hr hi
    have h2 := hle r i hr hi
    omega
  · intro i j hi hj hij
    exact hcf r i r j hr hi hr hj
      (fun hcon => hij (congrArg Prod.snd hcon)) (Or.inl rfl)
      (hfull r i hr hi)

theorem cols_exact (g' : Grid) (hfull : Full g') (hle : CellsLe9 g')
    (hcf : ConflictFree g') :
    ∀ c, c < 9 → unitExact (fun r => getCell g' r c) := by
  intro c hc
  apply unitExact_of
  · intro i hi
    have h1 := hfull i c hi hc
    have h2 := hle i c hi hc
    omega
  · intro i j hi hj hij
    exact hcf i c j c hi hc hj hc
      (fun hcon => hij (congrArg Prod.fst hcon)) (Or.inr (Or.inl rfl))
      (hfull i c hi hc)

theorem regions_exact (g' : Grid) (hfull : Full g') (hle : CellsLe9 g')
    (hcf : ConflictFree g') :
    ∀ br bc, br < 3 → bc < 3 →
      unitExact (fun i => getCell g' (3 * br + i / 3) (3 * bc + i % 3)) := by
  intro br bc hbr hbc
  apply unitExact_of
  · intro i hi
    have h1 := hfull (3 * br + i / 3) (3 * bc + i % 3) (by omega) (by omega)
    have h2 := hle (3 * br + i / 3) (3 * bc + i % 3) (by omega) (by omega)
    omega
  · intro i j hi hj hij
    apply hcf (3 * br + i / 3) (3 * bc + i % 3) (3 * br + j / 3)
      (3 * bc + j % 3) (by omega) (by omega) (by omega) (by omega)
    · intro hcon
      rw [Prod.mk.injEq] at hcon
      omega
    · exact Or.inr (Or.inr (by constructor <;> omega))
    · exact hfull (3 * br + i / 3) (3 * bc + i % 3) (by omega) (by omega)

theorem valid9_g119 : Valid9 g119 := by
  constructor
  · rfl
  · decide

theorem g119_nonzero' : ∀ r, r < 9 → ∀ c, c < 9 → getCell g119 r c ≠ 0 →
    r = 0 ∧ c < 3 := by decide

theorem g119_nonzero (r c : Nat) (hr : r < 9) (hc : c < 9)
    (h : getCell g119 r c ≠ 0) : r = 0 ∧ c < 3 :=
  g119_nonzero' r hr c hc h

theorem mem_onesSet (G : Grid) (p : Nat × Nat) :
    p ∈ onesSet G ↔ p.1 < 9 ∧ p.2 < 9 ∧ getCell G p.1 p.2 = 1 := by
  unfold onesSet
  rw [Finset.mem_filter, Finset.mem_product, Finset.mem_range, Finset.mem_range]
  constructor
  · rintro ⟨⟨h1, h2⟩, h3⟩
    exact ⟨h1, h2, h3⟩
  · rintro ⟨h1, h2, h3⟩
    exact ⟨⟨h1, h2⟩, h3⟩

set_option maxHeartbeats 1000000 in
theorem g119_unsolvable : (solveTop g119).1 = false := by
  cases hx : (solveAux 82 g119).1 with
  | false => exact hx
  | true =>
    exfalso
    obtain ⟨hv, hext, hfull, hnn, hle'⟩ :=
      solveAux_true_props 82 g119 valid9_g119 hx
    have hle : CellsLe9 (solveAux 82 g119).2 := by
      apply hle'
      intro r c hr hc
      revert hr hc
      revert r c
      have h9 : ∀ r, r < 9 → ∀ c, c < 9 → getCell g119 r c ≤ 9 := by decide
      exact fun r c hr hc => h9 r hr c hc
    set G := (solveAux 82 g119).2 with hG
    -- the two given 1s survive into G
    have hG00 : getCell G 0 0 = 1 := by
      have := hext 0 0 (by omega) (by omega) (by decide)
      rw [this]
      decide
    have hG01 : getCell G 0 1 = 1 := by
      have := hext 0 1 (by omega) (by omega) (by decide)
      rw [this]
      decide
    -- every row r ≥ 1 of G is duplicate-free, hence contains the value 1
    have hrow1 : ∀ r, 1 ≤ r → r < 9 → ∃ c, c < 9 ∧ getCell G r c = 1 := by
      intro r h1 h9
      have hdist : ∀ i j, i < 9 → j < 9 → i ≠ j →
          getCell G r i ≠ getCell G r j := by
        intro i j hi hj hij heq
        obtain ⟨hz, -⟩ := hnn r i r j h9 hi h9 hj
          (fun hcon => hij (congrArg Prod.snd hcon)) (Or.inl rfl)
          (hfull r i h9 hi) heq
        obtain ⟨hr0, -⟩ := g119_nonzero r i h9 hi hz
        omega
      have hunit := unitExact_of (fun c => getCell G r c)
        (fun i hi => by
          have h1' := hfull r i h9 hi
          have h2' := hle r i h9 hi
          show 1 ≤ getCell G r i ∧ getCell G r i ≤ 9
          omega) hdist
      have h1mem : (1 : ℕ) ∈ (Finset.range 9).image fun c => getCell G r c := by
        rw [hunit.2, Finset.mem_Icc]
        omega
      rw [Finset.mem_image] at h1mem
      obtain ⟨c, hc, hceq⟩ := h1mem
      exact ⟨c, Finset.mem_range.mp hc, hceq⟩
    -- no column of G holds two 1s
    have hinj : Set.InjOn Prod.snd ((onesSet G : Set (Nat × Nat))) := by
      intro p hp q hq hpq
      rw [Finset.mem_coe, mem_onesSet] at hp hq
      by_cases hfst : p.1 = q.1
      · exact Prod.ext hfst hpq
      · exfalso
        obtain ⟨hz1, hz2⟩ := hnn p.1 p.2 q.1 q.2 hp.1 hp.2.1 hq.1 hq.2.1
          (fun hcon => hfst (congrArg Prod.fst hcon))
          (Or.inr (Or.inl hpq)) (by rw [hp.2.2]; omega)
          (by rw [hp.2.2, hq.2.2])
        obtain ⟨hr1, -⟩ := g119_nonzero p.1 p.2 hp.1 hp.2.1 hz1
        obtain ⟨hr2, -⟩ := g119_nonzero q.1 q.2 hq.1 hq.2.1 hz2
        exact hfst (by omega)
    have hcard_le : (onesSet G).card ≤ 9 := by
      have := Finset.card_le_card_of_injOn Prod.snd
        (fun p hp => by
          rw [mem_onesSet] at hp
          exact Finset.mem_range.mpr hp.2.1) hinj
      simpa using this
    -- but G holds at least 10 ones: two in row 0 and one in each row 1..8
    have hcard_ge : 10 ≤ (onesSet G).card := by
      have hfib := Finset.card_eq_sum_card_fiberwise
        (f := Prod.fst) (s := onesSet G) (t := Finset.range 9)
        (fun p hp => by
          rw [mem_onesSet] at hp
          exact Finset.mem_range.mpr hp.1)
      have hbound : ∀ r ∈ Finset.range 9,
          (if r = 0 then 2 else 1) ≤
            ((onesSet G).filter fun p => p.1 = r).card := by
        intro r hr
        rw [Finset.mem_range] at hr
        by_cases hr0 : r = 0
        · subst hr0
          rw [if_pos rfl]
          have hsub : ({(0, 0), (0, 1)} : Finset (Nat × Nat)) ⊆
              (onesSet G).filter fun p => p.1 = 0 := by
            intro p hp
            rw [Finset.mem_insert, Finset.mem_singleton] at hp
            rcases hp with rfl | rfl
            · rw [Finset.mem_filter, mem_onesSet]
              exact ⟨⟨by omega, by omega, hG00⟩, rfl⟩
            · rw [Finset.mem_filter, mem_onesSet]
              exact ⟨⟨by omega, by omega, hG01⟩, rfl⟩
          calc 2 = ({(0, 0), (0, 1)} : Finset (Nat × Nat)).card := by decide
            _ ≤ _ := Finset.card_le_card hsub
        · rw [if_neg hr0]
          obtain ⟨c, hc, hceq⟩ := hrow1 r (by omega) hr
          have : (r, c) ∈ (onesSet G).filter fun p => p.1 = r := by
            rw [Finset.mem_filter, mem_onesSet]
            exact ⟨⟨hr, hc, hceq⟩, rfl⟩
          exact Finset.card_pos.mpr ⟨(r, c), this⟩
      have hsum : (10 : ℕ) = ∑ r ∈ Finset.range 9, (if r = 0 then 2 else 1) := by
        decide
      rw [hfib, hsum]
      exact Finset.sum_le_sum hbound
    omega

theorem loadLoop_ok (data : List String) :
    ∀ (rest : List String) (acc : Grid), (∀ s ∈ rest, goodLine s = true) →
      loadLoop data rest acc = .ok (acc ++ rest.map lineToRow) := by
  intro rest
  induction rest with
  | nil =>
    intro acc _
    simp [loadLoop]
  | cons i rest ih =>
    intro acc hgood
    rw [loadLoop, if_pos (hgood i (List.mem_cons_self i rest))]
    rw [ih (acc ++ [lineToRow i])
      (fun s hs => hgood s (List.mem_cons_of_mem i hs))]
    simp

theorem loadLoop_error (data : List String) :
    ∀ (rest : List String) (m : Nat) (acc : Grid) (hm : m < rest.length),
      goodLine (rest.get ⟨m, hm⟩) = false →
      (∀ j (hj : j < m), goodLine (rest.get ⟨j, by omega⟩) = true) →
      loadLoop data rest acc =
        .error (data.indexOf (rest.get ⟨m, hm⟩), rest.get ⟨m, hm⟩) := by
  intro rest
  induction rest with
  | nil =>
    intro m acc hm
    exact absurd hm (by simp)
  | cons i rest ih =>
    intro m acc hm hbad hgood
    cases m with
    | zero =>
      rw [loadLoop, if_neg (by rw [List.get] at hbad; rw [hbad]; exact
        Bool.false_ne_true)]
      rfl
    | succ m =>
      have hgood0 : goodLine i = true := hgood 0 (by omega)
      rw [loadLoop, if_pos hgood0]
      exact ih m (acc ++ [lineToRow i]) (by simpa using hm) hbad
        (fun j hj => hgood (j + 1) (by omega))

theorem indexOf_first {α} [BEq α] [LawfulBEq α] :
    ∀ (l : List α) (m : Nat) (hm : m < l.length),
      (∀ j (hj : j < m), ¬(l.get ⟨j, by omega⟩ = l.get ⟨m, hm⟩)) →
      l.indexOf (l.get ⟨m, hm⟩) = m := by
  intro l
  induction l with
  | nil =>
    intro m hm
    exact absurd hm (by simp)
  | cons x xs ih =>
    intro m hm hne
    cases m with
    | zero =>
      rw [List.indexOf_cons]
      have : (x == x) = true := beq_self_eq_true x
      rw [List.get, this]
      rfl
    | succ m =>
      have hxne : ¬(x = (x :: xs).get ⟨m + 1, hm⟩) := hne 0 (by omega)
      rw [List.indexOf_cons]
      have : (x == (x :: xs).get ⟨m + 1, hm⟩) = false := by
        rw [beq_eq_false_iff_ne]
        exact hxne
      rw [List.get] at this ⊢
      rw [this]
      simp only [Bool.cond_false]
      rw [ih m (by simpa using hm) (fun j hj => hne (j + 1) (by omega))]

theorem loadGrid_ok (ls : List String)
    (h : ∀ s ∈ stripLines ls, goodLine s = true) :
    loadGrid ls = .ok ((stripLines ls).map lineToRow) := by
  unfold loadGrid
  rw [loadLoop_ok _ _ [] h]
  simp

theorem loadGrid_error (ls : List String) (m : Nat)
    (hm : m < (stripLines ls).length)
    (hbad : goodLine ((stripLines ls).get ⟨m, hm⟩) = false)
    (hgood : ∀ j (hj : j < m),
      goodLine ((stripLines ls).get ⟨j, by omega⟩) = true) :
    loadGrid ls = .error (m, (stripLines ls).get ⟨m, hm⟩) := by
  unfold loadGrid
  rw [loadLoop_error _ _ m [] hm hbad hgood]
  rw [indexOf_first _ m hm ?_]
  intro j hj heq
  have h1 := hgood j hj
  rw [heq, hbad] at h1
  cases h1

theorem tryDigitsT_false_time (solve : Grid → ℚ → Bool × Grid × ℚ) (r c : Nat)
    (hsolve : ∀ g' t', (solve g' t').1 = false → (solve g' t').2.2 = t') :
    ∀ (ds : List Nat) (g : Grid) (t : ℚ),
      (tryDigitsT solve r c ds g t).1 = false →
      (tryDigitsT solve r c ds g t).2.2 = t := by
  intro ds
  induction ds with
  | nil =>
    intro g t _
    rfl
  | cons d ds ih =>
    intro g t hfalse
    by_cases hchk : check g d (r, c) = true
    · conv_lhs => unfold tryDigitsT
      conv at hfalse => lhs; unfold tryDigitsT
      rw [if_pos hchk] at hfalse ⊢
      obtain ⟨⟨b, g2, t2⟩, hres⟩ : ∃ y, solve (setCell g r c d) t = y :=
        ⟨_, rfl⟩
      rw [hres] at hfalse ⊢
      cases b with
      | true => cases hfalse
      | false =>
        have ht2 : t2 = t := by
          have h2 := hsolve (setCell g r c d) t
          rw [hres] at h2
          exact h2 rfl
        subst ht2
        exact ih (setCell g2 r c 0) t2 hfalse
    · rw [Bool.not_eq_true] at hchk
      conv_lhs => unfold tryDigitsT
      conv at hfalse => lhs; unfold tryDigitsT
      rw [if_neg (by rw [hchk]; exact Bool.false_ne_true)] at hfalse ⊢
      exact ih g t hfalse

theorem solveAuxT_false_time (τ : ℚ) :
    ∀ (fuel : Nat) (g : Grid) (t : ℚ), (solveAuxT τ fuel g t).1 = false →
      (solveAuxT τ fuel g t).2.2 = t := by
  intro fuel
  induction fuel with
  | zero =>
    intro g t _
    rfl
  | succ fuel ih =>
    intro g t hfalse
    cases hfind : findEmptyCell g with
    | none =>
      conv at hfalse => lhs; unfold solveAuxT
      rw [hfind] at hfalse
      cases hfalse
    | some rc =>
      cases rc with
      | mk r c =>
        conv_lhs => unfold solveAuxT
        conv at hfalse => lhs; unfold solveAuxT
        rw [hfind] at hfalse ⊢
        exact tryDigitsT_false_time (solveAuxT τ fuel) r c ih digits g t hfalse

theorem time_taken_zero : time_taken 0 = 0 := by
  unfold time_taken roundHalfEven
  norm_num

/-! ## The claims -/

/-- C1 (amended).  Validity of solved output for contradiction-free inputs:
whenever `solve` reports success on a 9×9 grid of digits 0..9 whose given
cells contain no row/column/region conflict, the resulting grid has, in every
row, every column and every 3×3 region, nine pairwise distinct values that
are exactly the set {1..9}.  (The original claim, quantified over *all*
inputs including grids whose givens already conflict, is false: see the
counterexample.) -/
theorem C1_validity_of_solved_output (g : Grid) (hg : Valid9 g)
    (hle : CellsLe9 g) (hcf : ConflictFree g) (hs : (solveTop g).1 = true) :
    (∀ r, r < 9 → unitExact (fun c => getCell (solveTop g).2 r c)) ∧
    (∀ c, c < 9 → unitExact (fun r => getCell (solveTop g).2 r c)) ∧
    (∀ br bc, br < 3 → bc < 3 →
      unitExact (fun i => getCell (solveTop g).2 (3 * br + i / 3)
        (3 * bc + i % 3))) := by
  obtain ⟨hv, hext, hfull, hnn, hle'⟩ := solveAux_true_props 82 g hg hs
  have hcf' : ConflictFree (solveAux 82 g).2 :=
    conflictFree_of_noNew g _ hcf hext hnn
  have hle2 : CellsLe9 (solveAux 82 g).2 := hle' hle
  exact ⟨rows_exact _ hfull hle2 hcf', cols_exact _ hfull hle2 hcf',
    regions_exact _ hfull hle2 hcf'⟩

/-- C1, witness: the amended theorem applied to the conflict-free complete
grid `fullGood`, on which `solve` reports success. -/
theorem C1_witness :
    Valid9 fullGood ∧ CellsLe9 fullGood ∧ ConflictFree fullGood ∧
    (solveTop fullGood).1 = true ∧
    ((∀ r, r < 9 → unitExact (fun c => getCell (solveTop fullGood).2 r c)) ∧
     (∀ c, c < 9 → unitExact (fun r => getCell (solveTop fullGood).2 r c)) ∧
     (∀ br bc, br < 3 → bc < 3 →
       unitExact (fun i => getCell (solveTop fullGood).2 (3 * br + i / 3)
         (3 * bc + i % 3)))) :=
  ⟨by decide, by decide, by decide, by decide,
    C1_validity_of_solved_output fullGood (by decide) (by decide) (by decide)
      (by decide)⟩

/-- C1, counterexample to the claim as stated: on the fully populated all-1s
grid (whose givens already contain a contradiction) `solve` reports success,
yet row 0 of the output repeats the value 1, so its values are not the set
{1..9} without repeats. -/
theorem C1_counterexample :
    (solveTop allOnes).1 = true ∧
    ¬ (∀ r, r < 9 → unitExact (fun c => getCell (solveTop allOnes).2 r c)) := by
  constructor
  · decide
  · intro h
    have h2 := (h 0 (by omega)).1 0 1 (by omega) (by omega) (by omega)
    exact h2 (by decide)

/-- C2.  Correctness of the placement check: for every 9×9 grid with cell
values in 0..9, digit `d` in 1..9 and position `(r, c)` with `r, c < 9`,
`check d (r, c)` is true iff no cell of row `r` other than `(r, c)`, no cell
of column `c` other than `(r, c)`, and no cell of the 3×3 region with origin
`(3*(r/3), 3*(c/3))` other than `(r, c)` currently holds `d`. -/
theorem C2_check_characterization (g : Grid) (d r c : Nat) (hg : Valid9 g)
    (hle : CellsLe9 g) (hd1 : 1 ≤ d) (hd9 : d ≤ 9) (hr : r < 9) (hc : c < 9) :
    check g d (r, c) = true ↔
      (∀ j, j < 9 → j ≠ c → getCell g r j ≠ d) ∧
      (∀ i, i < 9 → i ≠ r → getCell g i c ≠ d) ∧
      (∀ i j, 3 * (r / 3) ≤ i → i < 3 * (r / 3) + 3 → 3 * (c / 3) ≤ j →
        j < 3 * (c / 3) + 3 → (i, j) ≠ (r, c) → getCell g i j ≠ d) := by
  rw [check_eq_true_iff]
  constructor
  · rintro ⟨h1, h2, h3⟩
    exact ⟨h2, h1, h3⟩
  · rintro ⟨h1, h2, h3⟩
    exact ⟨h2, h1, h3⟩

/-- C2, witness: the characterization applied to `fullGood`, digit 1,
position (0, 0). -/
theorem C2_witness :
    Valid9 fullGood ∧ CellsLe9 fullGood ∧
    (check fullGood 1 (0, 0) = true ↔
      (∀ j, j < 9 → j ≠ 0 → getCell fullGood 0 j ≠ 1) ∧
      (∀ i, i < 9 → i ≠ 0 → getCell fullGood i 0 ≠ 1) ∧
      (∀ i j, 3 * (0 / 3) ≤ i → i < 3 * (0 / 3) + 3 → 3 * (0 / 3) ≤ j →
        j < 3 * (0 / 3) + 3 → (i, j) ≠ (0, 0) → getCell fullGood i j ≠ 1)) :=
  ⟨by decide, by decide,
    C2_check_characterization fullGood 1 0 0 (by decide) (by decide)
      (by omega) (by omega) (by omega) (by omega)⟩

/-- C3.  Completeness on solvable instances: every 9×9 grid that admits a
completion satisfying all row, column and region uniqueness constraints
while preserving the given non-zero cells is reported solved. -/
theorem C3_completeness (g : Grid) (hg : Valid9 g)
    (hex : ∃ S, Completes S g) : (solveTop g).1 = true :=
  solveAux_complete 82 g hg (by have := zeroCount_le_81 g; omega) hex

/-- C3, witness: `oneEmpty` is completed by `fullGood`, and `solve` reports
success on it. -/
theorem C3_witness :
    Valid9 oneEmpty ∧ (∃ S, Completes S oneEmpty) ∧
    (solveTop oneEmpty).1 = true :=
  ⟨by decide, ⟨fullGood, by decide⟩,
    C3_completeness oneEmpty (by decide) ⟨fullGood, by decide⟩⟩

/-- C4 (amended).  Unsolvability detection holds for the featured instance:
the grid whose row 0 begins 1, 1, 9 and which is otherwise all zeros is
reported unsolvable.  (It does not hold for every grid with two identical
non-zero digits in a row: see the counterexample, a fully populated such
grid on which `solve` reports success because already-filled cells are never
validated.) -/
theorem C4_unsolvability_detection :
    (solveTop g119).1 = false ∧
    getCell g119 0 0 = 1 ∧ getCell g119 0 1 = 1 ∧ getCell g119 0 2 = 9 ∧
    (∀ r, r < 9 → ∀ c, c < 9 → ¬(r = 0 ∧ c < 3) → getCell g119 r c = 0) :=
  ⟨g119_unsolvable, by decide, by decide, by decide, by decide⟩

/-- C4, counterexample to the claim as stated: the all-2s grid has two
identical non-zero digits in row 0, yet `solve` reports success on it. -/
theorem C4_counterexample :
    getCell allTwos 0 0 ≠ 0 ∧ getCell allTwos 0 0 = getCell allTwos 0 1 ∧
    (solveTop allTwos).1 = true := by
  decide

/-- C5.  Atomicity on failure: whenever `recursive_solve` returns `False`
(at any fuel, in particular at the top level) the grid it leaves behind is
exactly the grid it was called on — every tentative placement has been
retracted. -/
theorem C5_restoration (g : Grid) (hg : Valid9 g) :
    (∀ fuel, (solveAux fuel g).1 = false → (solveAux fuel g).2 = g) ∧
    ((solveTop g).1 = false → (solveTop g).2 = g) :=
  ⟨fun fuel => solveAux_false_eq fuel g hg, solveAux_false_eq 82 g hg⟩

/-- C5, witness: the unsolvable grid `gBlocked` is returned unchanged. -/
theorem C5_witness :
    Valid9 gBlocked ∧ (solveTop gBlocked).1 = false ∧
    (solveTop gBlocked).2 = gBlocked :=
  ⟨by decide, by decide, (C5_restoration gBlocked (by decide)).2 (by decide)⟩

/-- C6.  Fidelity: every originally non-zero (given) cell still holds its
original value after `solve` returns, whatever the outcome. -/
theorem C6_fidelity (g : Grid) (hg : Valid9 g) (r c : Nat) (hr : r < 9)
    (hc : c < 9) (hnz : getCell g r c ≠ 0) :
    getCell (solveTop g).2 r c = getCell g r c := by
  cases hb : (solveTop g).1 with
  | true => exact (solveAux_true_props 82 g hg hb).2.1 r c hr hc hnz
  | false =>
    have h1 : (solveAux 82 g).2 = g := solveAux_false_eq 82 g hg hb
    show getCell (solveAux 82 g).2 r c = getCell g r c
    rw [h1]

/-- C6, witness: the given cell (0, 1) of `oneEmpty` keeps its value 2. -/
theorem C6_witness :
    Valid9 oneEmpty ∧ getCell oneEmpty 0 1 ≠ 0 ∧
    getCell (solveTop oneEmpty).2 0 1 = getCell oneEmpty 0 1 :=
  ⟨by decide, by decide,
    C6_fidelity oneEmpty (by decide) 0 1 (by omega) (by omega) (by decide)⟩

/-- C7 (amended).  Load rejection: after stripping and skipping blank lines,
`load_grid` succeeds (producing the parsed rows) when every line is 9 digit
characters, and fails — producing the error payload and no grid — exactly on
the first line that is not, reporting the 0-based index of that line and its
content.  The total number of lines is *not* checked (see the
counterexample: a one-line source loads successfully). -/
theorem C7_load_characterization (ls : List String) :
    ((∀ s ∈ stripLines ls, goodLine s = true) →
      loadGrid ls = Except.ok ((stripLines ls).map lineToRow)) ∧
    (∀ m (hm : m < (stripLines ls).length),
      goodLine ((stripLines ls).get ⟨m, hm⟩) = false →
      (∀ j (hj : j < m), goodLine ((stripLines ls).get ⟨j, by omega⟩) = true) →
      loadGrid ls = Except.error (m, (stripLines ls).get ⟨m, hm⟩)) :=
  ⟨loadGrid_ok ls, loadGrid_error ls⟩

/-- C7, witness: a source whose row 0 has length 8 fails naming row index 0
and the raw content, as in spec example 4. -/
theorem C7_witness : loadGrid ["12345678"] = Except.error (0, "12345678") :=
  (C7_load_characterization ["12345678"]).2 0 (by decide) (by decide)
    (fun j hj => absurd hj (by omega))

/-- C7, counterexample to the claim as stated: a source of a single valid
line loads successfully even though its total line count differs from 9. -/
theorem C7_counterexample :
    (stripLines ["123456789"]).length ≠ 9 ∧
    loadGrid ["123456789"] = Except.ok [[1, 2, 3, 4, 5, 6, 7, 8, 9]] :=
  ⟨by decide, rfl⟩

/-- C8.  Determinism: the empty-cell selection is the fixed row-major scan
returning the first cell equal to 0 (row order, then columns within the
row), the candidate digits are tried in ascending order 1..9, and solving
the same grid always yields the identical verdict and grid. -/
theorem C8_determinism (g : Grid) :
    (∀ r c, findEmptyCell g = some (r, c) ↔
      r < 9 ∧ c < 9 ∧ getCell g r c = 0 ∧
        ∀ r' c', r' < 9 → c' < 9 → (r' < r ∨ (r' = r ∧ c' < c)) →
          getCell g r' c' ≠ 0) ∧
    digits = [1, 2, 3, 4, 5, 6, 7, 8, 9] ∧
    List.Sorted (· < ·) digits ∧
    (∀ g₂, g₂ = g → solveTop g₂ = solveTop g) :=
  ⟨fun r c => findEmptyCell_eq_some_iff g r c, rfl, by decide,
    fun g₂ h => by rw [h]⟩

/-- C8, witness: on `gBlocked` the row-major characterization pins the first
empty cell to (0, 2). -/
theorem C8_witness : findEmptyCell gBlocked = some (0, 2) :=
  ((C8_determinism gBlocked).1 0 2).mpr
    ⟨by omega, by omega, by decide, by
      intro r' c' h1 h2 h3
      rcases h3 with h | ⟨rfl, hc⟩
      · omega
      · interval_cases c' <;> decide⟩

/-- C9.  Termination: the number of empty cells strictly decreases at every
placement the recursion makes, it is bounded by 81, and any recursion depth
(fuel) beyond it — in particular the depth `solveTop` uses — computes the
same result, i.e. the recursion terminates within depth `zeroCount g`. -/
theorem C9_termination (g : Grid) (hg : Valid9 g) :
    (∀ r c d, findEmptyCell g = some (r, c) → 1 ≤ d → d ≤ 9 →
      zeroCount (setCell g r c d) < zeroCount g) ∧
    zeroCount g ≤ 81 ∧
    (∀ f₁ f₂, zeroCount g < f₁ → zeroCount g < f₂ →
      solveAux f₁ g = solveAux f₂ g) ∧
    solveTop g = solveAux (zeroCount g + 1) g := by
  refine ⟨?_, zeroCount_le_81 g, ?_, ?_⟩
  · intro r c d hfind hd1 hd9
    obtain ⟨hr, hc, h0⟩ := findEmptyCell_some g r c hfind
    exact zeroCount_setCell_lt g r c d hg hr hc h0 (by omega)
  · intro f₁ f₂ h1 h2
    exact solveAux_fuel_irrelevant f₁ f₂ g hg h1 h2
  · have h81 := zeroCount_le_81 g
    exact solveAux_fuel_irrelevant 82 (zeroCount g + 1) g hg (by omega)
      (by omega)

/-- C9, witness: the theorem applied to `oneEmpty`. -/
theorem C9_witness :
    Valid9 oneEmpty ∧
    solveTop oneEmpty = solveAux (zeroCount oneEmpty + 1) oneEmpty :=
  ⟨by decide, (C9_termination oneEmpty (by decide)).2.2.2⟩

/-- C10.  The `self.time` field is assigned only in the base case of
`recursive_solve`, which is reached exactly on the success path; hence after
a solve that reports unsolvable on a fresh object (`self.time = 0.0` from
`__init__`), the field still holds 0 and `time_taken()` returns 0.0 (the
value the batch harness would then average). -/
theorem C10_time_zero_on_failure (τ : ℚ) (fuel : Nat) (g : Grid)
    (hfail : (solveAuxT τ fuel g 0).1 = false) :
    (solveAuxT τ fuel g 0).2.2 = 0 ∧
    time_taken (solveAuxT τ fuel g 0).2.2 = 0 := by
  have h := solveAuxT_false_time τ fuel g 0 hfail
  refine ⟨h, ?_⟩
  rw [h]
  exact time_taken_zero

/-- C10, witness: an unsolvable solve of `gBlocked` (with any elapsed-time
value, here 5) leaves the time field at 0, and `time_taken()` is 0. -/
theorem C10_witness :
    (solveAuxT 5 82 gBlocked 0).1 = false ∧
    (solveAuxT 5 82 gBlocked 0).2.2 = 0 ∧
    time_taken (solveAuxT 5 82 gBlocked 0).2.2 = 0 := by
  have h : (solveAuxT 5 82 gBlocked 0).1 = false := by decide
  obtain ⟨h1, h2⟩ := C10_time_zero_on_failure 5 82 gBlocked h
  exact ⟨h, h1, h2⟩
